import Mathlib

/-!
Shallow embedding of the smart-complaint-portal backend
(`src/backend/server.js`) and proofs of its specified properties.

Modelling conventions:
* ISO-8601 timestamps are modelled as `Nat` (milliseconds since epoch);
  comparison of `new Date(s)` values coincides with `Nat` comparison.
* The in-memory store `complaints` (a JS array) is a `List Complaint`;
  handlers are pure functions from the store (plus request data and the
  current clock) to a response together with the resulting store and,
  where relevant, whether `saveComplaints()` (a persistence write) ran.
* Rate limiting happens before every handler modelled here; the handlers
  model the post-rate-limit stage of the pipeline, which is all the
  claims below are about.
-/

/-- A complaint record, mirroring the object literal built in the
`POST /api/complaints` handler (server.js lines 131-144). `photoData`
is `Option String` because JS stores `photoData || null`. -/
structure Complaint where
  _id : String
  name : String
  issueType : String
  title : String
  description : String
  location : String
  status : String
  upvotes : Nat
  photoData : Option String
  upvoters : List String
  createdAt : Nat
  updatedAt : Nat
deriving DecidableEq, Repr

/-- Request body of `POST /api/complaints`. `name` and `photoData` are
optional in the validator chain; the other four fields are required
(a missing required field fails `isLength`/`isIn`, i.e. validation). -/
structure CreateBody where
  name : Option String
  issueType : String
  title : String
  description : String
  location : String
  photoData : Option String
deriving DecidableEq, Repr

/-- `body("issueType").isIn([...])` (server.js line 114). -/
def validIssueType (s : String) : Bool :=
  s == "Road" || s == "Street Light" || s == "Water" || s == "Garbage" || s == "Other"

/-- The express-validator chain of `POST /api/complaints`
(server.js lines 112-121): inclusive length bounds, optional fields
checked only when present. -/
def validateCreate (b : CreateBody) : Bool :=
  validIssueType b.issueType
    && (5 ≤ b.title.length && b.title.length ≤ 120)
    && (10 ≤ b.description.length && b.description.length ≤ 1000)
    && (3 ≤ b.location.length && b.location.length ≤ 200)
    && (match b.name with | none => true | some n => n.length ≤ 80)
    && (match b.photoData with | none => true | some p => p.length ≤ 5000000)

/-- Result of the create handler: 400 on validation failure, otherwise
201 with the created record and the store with it appended. -/
inductive CreateResult where
  | validationFailed
  | created (c : Complaint) (st : List Complaint)
deriving DecidableEq, Repr

/-- The `POST /api/complaints` handler (server.js lines 122-154).
`newId` stands for the generated `"c_" + Date.now().toString(36) + ...`
string and `now` for `Date.now()`. JS `name || ""` maps both absence
and `""` to `""`; `photoData || null` maps both absence and `""` to
`null`. -/
def createHandler (st : List Complaint) (b : CreateBody) (newId : String) (now : Nat) :
    CreateResult :=
  if validateCreate b then
    let c : Complaint :=
      { _id := newId
        name := match b.name with | none => "" | some n => n
        issueType := b.issueType
        title := b.title
        description := b.description
        location := b.location
        status := "Pending"
        upvotes := 0
        photoData := match b.photoData with
          | none => none
          | some p => if p == "" then none else some p
        upvoters := []
        createdAt := now
        updatedAt := now }
    .created c (st ++ [c])
  else .validationFailed

/-- The body of the upvote handler's dedup branch (server.js lines
168-172): push the address, bump the count, refresh `updatedAt`.
(`complaint.upvotes || 0` is just `upvotes` since the field is a Nat.) -/
def bumpUpvote (c : Complaint) (ip : String) (now : Nat) : Complaint :=
  { c with upvoters := c.upvoters ++ [ip], upvotes := c.upvotes + 1, updatedAt := now }

/-- One upvote applied to a single complaint: the pair is the resulting
record and whether `saveComplaints()` ran (server.js lines 168-173). -/
def upvoteStep (c : Complaint) (ip : String) (now : Nat) : Complaint × Bool :=
  if c.upvoters.contains ip then (c, false) else (bumpUpvote c ip now, true)

/-- Response part of the upvote handler: 404 or the (possibly updated)
complaint echoed back with `res.json(complaint)`. -/
inductive UpvoteResp where
  | notFound
  | ok (c : Complaint)
deriving DecidableEq, Repr

/-- Full outcome of an upvote request: response, resulting store, and
whether a persistence write happened. -/
structure UpvoteOut where
  resp : UpvoteResp
  store : List Complaint
  saved : Bool
deriving DecidableEq, Repr

/-- The `POST /api/complaints/:id/upvote` handler (server.js lines
158-180). The JS code does `findIndex` on `_id` and mutates that array
slot in place; here the first matching element is replaced and the rest
of the list kept. -/
def upvoteHandler : List Complaint → String → String → Nat → UpvoteOut
  | [], _, _, _ => ⟨.notFound, [], false⟩
  | c :: cs, id, ip, now =>
    if c._id == id then
      let p := upvoteStep c ip now
      ⟨.ok p.1, p.1 :: cs, p.2⟩
    else
      let r := upvoteHandler cs id ip now
      ⟨r.resp, c :: r.store, r.saved⟩

/-- Replace the first record whose `_id` matches (what the in-place
mutation at a `findIndex` slot amounts to). -/
def replaceFirst : List Complaint → String → Complaint → List Complaint
  | [], _, _ => []
  | c :: cs, id, c' => if c._id == id then c' :: cs else c :: replaceFirst cs id c'

/-- `complaints.findIndex((c) => c._id === id)` viewed as a lookup. -/
def findComplaint (st : List Complaint) (id : String) : Option Complaint :=
  st.find? (fun c => c._id == id)

/-- The store-level invariant from the spec: every complaint's `upvotes`
equals the size of its `upvoters` set. -/
def ComplaintInv (c : Complaint) : Prop := c.upvotes = c.upvoters.length

/-- `ComplaintInv` for every record in the store. -/
def StoreInv (st : List Complaint) : Prop := ∀ c ∈ st, ComplaintInv c

/-- Stable insertion of a complaint into a list kept in `createdAt`
descending order: `c` goes in front of the first element whose key is
`≤ c`'s, so an earlier-inserted element with an equal key stays in
front only if it is processed later by the enclosing `foldr`. -/
def insertByCreatedDesc (c : Complaint) : List Complaint → List Complaint
  | [] => [c]
  | d :: ds => if d.createdAt ≤ c.createdAt then c :: d :: ds else d :: insertByCreatedDesc c ds

/-- The sort in the `GET /api/complaints` handler (server.js line 104):
`complaints.slice().sort((a, b) => new Date(b.createdAt) - new Date(a.createdAt))`.
ECMAScript `Array.prototype.sort` is stable, so the call is a stable
sort by `createdAt` descending; modelled as stable insertion sort. -/
def sortByCreatedDesc (l : List Complaint) : List Complaint :=
  l.foldr insertByCreatedDesc []

/-- The `GET /api/complaints` handler (server.js lines 103-106). -/
def listComplaints (st : List Complaint) : List Complaint :=
  sortByCreatedDesc st

/-- Abstract model of a JWT as the jsonwebtoken library treats it:
whether the string parses as a structurally well-formed token, which
key produced its signature, its expiry instant, and its `role` claim
(`none` when the payload carries no `role`). -/
structure Token where
  wellFormed : Bool
  key : String
  exp : Nat
  role : Option String
deriving DecidableEq, Repr

/-- Model of the library call `jwt.verify(token, secret)`: returns the
payload's `role` claim when the token is well-formed, signed with
`secret` and unexpired; `none` models the exception thrown otherwise. -/
def jwtVerify (t : Token) (secret : String) (now : Nat) : Option (Option String) :=
  if t.wellFormed && t.key == secret && decide (now < t.exp) then some t.role else none

/-- The `expiresIn: "8h"` validity window, in milliseconds. -/
def eightHours : Nat := 8 * 60 * 60 * 1000

/-- Model of `jwt.sign({ role: "admin" }, secret, { expiresIn: "8h" })`
(server.js lines 96-98): a well-formed token signed with `secret`,
carrying the given role, expiring `eightHours` after `now`. -/
def jwtSign (role : String) (secret : String) (now : Nat) : Token :=
  { wellFormed := true, key := secret, exp := now + eightHours, role := some role }

/-- The credential the `Authorization` header yields after the prefix
handling in `authAdmin` (server.js lines 67-69): `missing` covers no
header, a header without the `"Bearer "` prefix, and an empty token
after the prefix (all of which make `token` falsy and return 401). -/
inductive Credential where
  | missing
  | bearer (t : Token)
deriving DecidableEq, Repr

/-- Outcome of the `authAdmin` middleware: 401, 403, or `next()`. -/
inductive AuthResult where
  | unauthorized
  | forbidden
  | authorized
deriving DecidableEq, Repr

/-- The `authAdmin` middleware (server.js lines 66-81): 401 when the
token is missing or `jwt.verify` throws; 403 when the decoded payload's
`role` is not `"admin"`; otherwise pass through. -/
def authAdmin (cred : Credential) (secret : String) (now : Nat) : AuthResult :=
  match cred with
  | .missing => .unauthorized
  | .bearer t =>
    match jwtVerify t secret now with
    | none => .unauthorized
    | some role => if role == some "admin" then .authorized else .forbidden

/-- Result of `POST /api/admin/login`: 401 or a signed token. -/
inductive LoginResult where
  | unauthorized
  | token (t : Token)
deriving DecidableEq, Repr

/-- The `POST /api/admin/login` handler (server.js lines 91-100).
`password` is `none` when the body has no `password` field; the guard
`!password || password !== ADMIN_PASSWORD` also rejects the empty
string, because `""` is falsy in JS. -/
def login (password : Option String) (adminPassword : String) (jwtSecret : String)
    (now : Nat) : LoginResult :=
  match password with
  | none => .unauthorized
  | some p =>
    if p == "" || p != adminPassword then .unauthorized
    else .token (jwtSign "admin" jwtSecret now)

/-- `body("status").isIn(["Pending", "In Progress", "Resolved"])`
(server.js line 186). -/
def validStatus (s : String) : Bool :=
  s == "Pending" || s == "In Progress" || s == "Resolved"

/-- Update the first record whose `_id` matches: new status, refreshed
`updatedAt` (server.js lines 197-202); `none` when no record matches. -/
def setStatus : List Complaint → String → String → Nat → Option (Complaint × List Complaint)
  | [], _, _, _ => none
  | c :: cs, id, status, now =>
    if c._id == id then
      let c' := { c with status := status, updatedAt := now }
      some (c', c' :: cs)
    else
      match setStatus cs id status now with
      | none => none
      | some (c', cs') => some (c', c :: cs')

/-- Response of the status route: auth failure (401/403), 400, 404, or
the updated complaint. -/
inductive StatusResp where
  | authFailed (a : AuthResult)
  | validationFailed
  | notFound
  | ok (c : Complaint)
deriving DecidableEq, Repr

/-- Outcome of a status request: response plus the resulting store. -/
structure StatusOut where
  resp : StatusResp
  store : List Complaint
deriving DecidableEq, Repr

/-- The `PATCH /api/complaints/:id/status` route (server.js lines
183-210). The middleware order is exactly the source's: `authAdmin`
runs first (line 185), the `status` validator is checked afterwards in
the handler (lines 186-191), then the record is looked up and updated.
`stat` is `none` when the body has no `status` field (the `isIn`
validator then fails). -/
def statusHandler (st : List Complaint) (cred : Credential) (secret : String)
    (id : String) (stat : Option String) (now : Nat) : StatusOut :=
  match authAdmin cred secret now with
  | .unauthorized => ⟨.authFailed .unauthorized, st⟩
  | .forbidden => ⟨.authFailed .forbidden, st⟩
  | .authorized =>
    match stat with
    | none => ⟨.validationFailed, st⟩
    | some s =>
      if validStatus s then
        match setStatus st id s now with
        | none => ⟨.notFound, st⟩
        | some (c', st') => ⟨.ok c', st'⟩
      else ⟨.validationFailed, st⟩

/-- Iterated upvoting of one complaint from a list of addresses. -/
def upvoteAll (st : List Complaint) (id : String) (ips : List String) (now : Nat) :
    List Complaint :=
  ips.foldl (fun s ip => (upvoteHandler s id ip now).store) st

/-- A concrete freshly-created complaint, used to instantiate theorems. -/
def sampleComplaint : Complaint :=
  { _id := "c1", name := "", issueType := "Road", title := "Pothole on Main St"
    description := "Large pothole causing traffic issues", location := "Main St & 5th"
    status := "Pending", upvotes := 0, photoData := none, upvoters := []
    createdAt := 3, updatedAt := 3 }

/-- A concrete complaint that has already been upvoted once from
address `"9.9.9.9"`, used to instantiate theorems. -/
def sampleUpvotedComplaint : Complaint :=
  { _id := "c1", name := "", issueType := "Road", title := "Pothole on Main St"
    description := "Large pothole causing traffic issues", location := "Main St & 5th"
    status := "Pending", upvotes := 1, photoData := none, upvoters := ["9.9.9.9"]
    createdAt := 3, updatedAt := 4 }

/-! ### Helper lemmas -/

theorem findComplaint_cons (c : Complaint) (cs : List Complaint) (id : String) :
    findComplaint (c :: cs) id = if c._id == id then some c else findComplaint cs id := by
  by_cases h : c._id == id
  · simp [findComplaint, List.find?_cons_of_pos _ h, h]
  · simp [findComplaint, List.find?_cons_of_neg _ h, h]

theorem findComplaint_id (st : List Complaint) (id : String) (c : Complaint)
    (h : findComplaint st id = some c) : c._id = id := by
  have := List.find?_some h
  simpa using this

theorem upvoteStep_id (c : Complaint) (ip : String) (now : Nat) :
    (upvoteStep c ip now).1._id = c._id := by
  unfold upvoteStep
  split <;> rfl

theorem upvoteHandler_find_none (st : List Complaint) (id ip : String) (now : Nat)
    (h : findComplaint st id = none) :
    upvoteHandler st id ip now = ⟨.notFound, st, false⟩ := by
  induction st with
  | nil => rfl
  | cons c cs ih =>
    rw [findComplaint_cons] at h
    by_cases hc : c._id == id
    · simp [hc] at h
    · simp only [hc, if_false] at h
      simp [upvoteHandler, hc, ih h]

theorem upvoteHandler_find_some (st : List Complaint) (id ip : String) (now : Nat)
    (c : Complaint) (h : findComplaint st id = some c) :
    upvoteHandler st id ip now =
      ⟨.ok (upvoteStep c ip now).1, replaceFirst st id (upvoteStep c ip now).1,
        (upvoteStep c ip now).2⟩ := by
  induction st with
  | nil => simp [findComplaint] at h
  | cons d ds ih =>
    rw [findComplaint_cons] at h
    by_cases hd : d._id == id
    · simp only [hd, if_true, Option.some.injEq] at h
      subst h
      simp [upvoteHandler, replaceFirst, hd]
    · simp only [hd, if_false] at h
      simp [upvoteHandler, replaceFirst, hd, ih h]

theorem contains_false_iff (l : List String) (b : String) : l.contains b = false ↔ b ∉ l := by
  rw [← Bool.not_eq_true, List.elem_iff]

theorem upvoteStep_of_contains (c : Complaint) (ip : String) (now : Nat)
    (h : c.upvoters.contains ip = true) : upvoteStep c ip now = (c, false) := by
  have hm : ip ∈ c.upvoters := List.elem_iff.mp h
  simp [upvoteStep, hm]

theorem upvoteStep_of_fresh (c : Complaint) (ip : String) (now : Nat)
    (h : c.upvoters.contains ip = false) :
    upvoteStep c ip now = (bumpUpvote c ip now, true) := by
  have hm : ip ∉ c.upvoters := (contains_false_iff _ _).mp h
  simp [upvoteStep, hm]

theorem upvoteStep_contains_self (c : Complaint) (ip : String) (now : Nat) :
    (upvoteStep c ip now).1.upvoters.contains ip = true := by
  by_cases hm : ip ∈ c.upvoters
  · rw [List.elem_iff]
    simp [upvoteStep, hm]
  · rw [List.elem_iff]
    simp [upvoteStep, hm, bumpUpvote]

theorem upvoteStep_upvotes_le (c : Complaint) (ip : String) (now : Nat) :
    (upvoteStep c ip now).1.upvotes ≤ c.upvotes + 1 := by
  by_cases hm : ip ∈ c.upvoters
  · simp [upvoteStep, hm]
  · simp [upvoteStep, hm, bumpUpvote]

theorem upvoteStep_inv (c : Complaint) (ip : String) (now : Nat)
    (h : ComplaintInv c) : ComplaintInv (upvoteStep c ip now).1 := by
  by_cases hm : ip ∈ c.upvoters
  · simpa [upvoteStep, hm] using h
  · unfold ComplaintInv at h ⊢
    simp [upvoteStep, hm, bumpUpvote, h]

theorem find_replaceFirst (st : List Complaint) (id : String) (c' : Complaint)
    (hid : c'._id = id) (c : Complaint) (h : findComplaint st id = some c) :
    findComplaint (replaceFirst st id c') id = some c' := by
  induction st with
  | nil => simp [findComplaint] at h
  | cons d ds ih =>
    rw [findComplaint_cons] at h
    by_cases hd : d._id == id
    · simp [replaceFirst, hd, findComplaint_cons, hid]
    · simp only [hd, if_false] at h
      simp [replaceFirst, hd, findComplaint_cons, ih h]

theorem replaceFirst_self (st : List Complaint) (id : String) (c : Complaint)
    (h : findComplaint st id = some c) : replaceFirst st id c = st := by
  induction st with
  | nil => rfl
  | cons d ds ih =>
    rw [findComplaint_cons] at h
    by_cases hd : d._id == id
    · simp only [hd, if_true, Option.some.injEq] at h
      subst h
      simp [replaceFirst, hd]
    · simp only [hd, if_false] at h
      simp [replaceFirst, hd, ih h]

theorem StoreInv.of_cons {c : Complaint} {cs : List Complaint}
    (h : StoreInv (c :: cs)) : ComplaintInv c ∧ StoreInv cs :=
  ⟨h c (by simp), fun d hd => h d (by simp [hd])⟩

theorem upvoteHandler_inv (st : List Complaint) (id ip : String) (now : Nat)
    (h : StoreInv st) : StoreInv (upvoteHandler st id ip now).store := by
  induction st with
  | nil =>
    intro d hd
    simp [upvoteHandler] at hd
  | cons c cs ih =>
    obtain ⟨hc, hcs⟩ := h.of_cons
    by_cases hid : c._id == id
    · simp only [upvoteHandler, hid, if_true]
      intro d hd
      rcases List.mem_cons.mp hd with h1 | h2
      · subst h1; exact upvoteStep_inv c ip now hc
      · exact hcs d h2
    · simp only [upvoteHandler, hid, if_false]
      intro d hd
      rcases List.mem_cons.mp hd with h1 | h2
      · subst h1; exact hc
      · exact ih hcs d h2

theorem setStatus_inv (st : List Complaint) (id s : String) (now : Nat)
    (h : StoreInv st) (c' : Complaint) (st' : List Complaint)
    (hs : setStatus st id s now = some (c', st')) : StoreInv st' := by
  induction st generalizing c' st' with
  | nil => simp [setStatus] at hs
  | cons c cs ih =>
    obtain ⟨hc, hcs⟩ := h.of_cons
    by_cases hid : c._id == id
    · simp only [setStatus, hid, if_true, Option.some.injEq, Prod.mk.injEq] at hs
      obtain ⟨h1, h2⟩ := hs
      subst h2
      intro d hd
      rcases List.mem_cons.mp hd with h1' | h2'
      · subst h1'
        unfold ComplaintInv at hc ⊢
        simpa using hc
      · exact hcs d h2'
    · cases heq : setStatus cs id s now with
      | none => simp [setStatus, hid, heq] at hs
      | some p =>
        obtain ⟨d, ds⟩ := p
        simp [setStatus, hid, heq] at hs
        obtain ⟨h1, h2⟩ := hs
        subst h1; subst h2
        intro e he
        rcases List.mem_cons.mp he with h1' | h2'
        · subst h1'; exact hc
        · exact ih hcs d ds heq e h2'

theorem insertByCreatedDesc_perm (c : Complaint) (l : List Complaint) :
    (insertByCreatedDesc c l).Perm (c :: l) := by
  induction l with
  | nil => exact List.Perm.refl _
  | cons d ds ih =>
    by_cases h : d.createdAt ≤ c.createdAt
    · simp [insertByCreatedDesc, h]
    · simp only [insertByCreatedDesc, h, if_false]
      exact (ih.cons d).trans (List.Perm.swap c d ds)

theorem sortByCreatedDesc_perm (l : List Complaint) : (sortByCreatedDesc l).Perm l := by
  induction l with
  | nil => exact List.Perm.refl _
  | cons c cs ih =>
    show (insertByCreatedDesc c (sortByCreatedDesc cs)).Perm (c :: cs)
    exact (insertByCreatedDesc_perm c (sortByCreatedDesc cs)).trans (ih.cons c)

theorem insertByCreatedDesc_pairwise (c : Complaint) (l : List Complaint)
    (h : l.Pairwise (fun a b => b.createdAt ≤ a.createdAt)) :
    (insertByCreatedDesc c l).Pairwise (fun a b => b.createdAt ≤ a.createdAt) := by
  induction l with
  | nil => simp [insertByCreatedDesc]
  | cons d ds ih =>
    obtain ⟨hd, hds⟩ := List.pairwise_cons.mp h
    by_cases hle : d.createdAt ≤ c.createdAt
    · simp only [insertByCreatedDesc, hle, if_true]
      refine List.pairwise_cons.mpr ⟨?_, h⟩
      intro x hx
      rcases List.mem_cons.mp hx with h1 | h2
      · subst h1; exact hle
      · exact le_trans (hd x h2) hle
    · simp only [insertByCreatedDesc, hle, if_false]
      refine List.pairwise_cons.mpr ⟨?_, ih hds⟩
      intro x hx
      have hx' : x ∈ c :: ds := (insertByCreatedDesc_perm c ds).mem_iff.mp hx
      rcases List.mem_cons.mp hx' with h1 | h2
      · subst h1; exact Nat.le_of_not_le hle
      · exact hd x h2

theorem sortByCreatedDesc_pairwise (l : List Complaint) :
    (sortByCreatedDesc l).Pairwise (fun a b => b.createdAt ≤ a.createdAt) := by
  induction l with
  | nil => simp [sortByCreatedDesc]
  | cons c cs ih =>
    show (insertByCreatedDesc c (sortByCreatedDesc cs)).Pairwise _
    exact insertByCreatedDesc_pairwise c (sortByCreatedDesc cs) ih

theorem filter_insertByCreatedDesc (c : Complaint) (l : List Complaint) (k : Nat) :
    (insertByCreatedDesc c l).filter (fun d => d.createdAt == k)
      = if c.createdAt == k then c :: l.filter (fun d => d.createdAt == k)
        else l.filter (fun d => d.createdAt == k) := by
  induction l with
  | nil =>
    by_cases hck : c.createdAt = k <;> simp [insertByCreatedDesc, hck]
  | cons d ds ih =>
    simp only [insertByCreatedDesc]
    by_cases hle : d.createdAt ≤ c.createdAt
    · rw [if_pos hle]
      by_cases hck : c.createdAt = k <;> simp [List.filter_cons, hck]
    · rw [if_neg hle]
      have hlt : c.createdAt < d.createdAt := Nat.lt_of_not_le hle
      by_cases hdk : d.createdAt = k
      · have hck : ¬ c.createdAt = k := by omega
        simp [List.filter_cons, hdk, hck, ih]
      · by_cases hck : c.createdAt = k <;> simp [List.filter_cons, hdk, hck, ih]

theorem filter_sortByCreatedDesc (l : List Complaint) (k : Nat) :
    (sortByCreatedDesc l).filter (fun d => d.createdAt == k)
      = l.filter (fun d => d.createdAt == k) := by
  induction l with
  | nil => rfl
  | cons c cs ih =>
    show (insertByCreatedDesc c (sortByCreatedDesc cs)).filter _ = _
    rw [filter_insertByCreatedDesc]
    by_cases hck : c.createdAt = k <;> simp [List.filter_cons, hck, ih]

theorem upvoteAll_nil (st : List Complaint) (id : String) (now : Nat) :
    upvoteAll st id [] now = st := rfl

theorem upvoteAll_cons (st : List Complaint) (id ip : String) (ips : List String)
    (now : Nat) :
    upvoteAll st id (ip :: ips) now = upvoteAll (upvoteHandler st id ip now).store id ips now :=
  rfl

theorem upvoteAll_fresh (ips : List String) :
    ∀ (st : List Complaint) (id : String) (now : Nat) (c : Complaint),
      findComplaint st id = some c → ips.Nodup →
      (∀ ip ∈ ips, ip ∉ c.upvoters) →
      ∃ c', findComplaint (upvoteAll st id ips now) id = some c' ∧
        c'.upvotes = c.upvotes + ips.length ∧ c'.upvoters = c.upvoters ++ ips := by
  induction ips with
  | nil =>
    intro st id now c hf _ _
    exact ⟨c, by simpa [upvoteAll_nil] using hf, by simp, by simp⟩
  | cons ip ips ih =>
    intro st id now c hf hnd hfresh
    have hid : c._id = id := findComplaint_id st id c hf
    have hfr : ip ∉ c.upvoters := hfresh ip (by simp)
    have hcontains : c.upvoters.contains ip = false := (contains_false_iff _ _).mpr hfr
    have hstep := upvoteStep_of_fresh c ip now hcontains
    have hrun := upvoteHandler_find_some st id ip now c hf
    have hfind' : findComplaint (upvoteHandler st id ip now).store id
        = some (bumpUpvote c ip now) := by
      rw [hrun]
      show findComplaint (replaceFirst st id (upvoteStep c ip now).1) id = _
      rw [hstep]
      exact find_replaceFirst st id _ (by simpa [bumpUpvote] using hid) c hf
    rw [upvoteAll_cons]
    have hnd' := List.nodup_cons.mp hnd
    have hfresh' : ∀ ip' ∈ ips, ip' ∉ (bumpUpvote c ip now).upvoters := by
      intro ip' hip'
      simp only [bumpUpvote, List.mem_append, List.mem_singleton]
      rintro (h1 | h2)
      · exact hfresh ip' (by simp [hip']) h1
      · exact hnd'.1 (h2 ▸ hip')
    obtain ⟨c', h1, h2, h3⟩ := ih _ id now (bumpUpvote c ip now) hfind' hnd'.2 hfresh'
    refine ⟨c', h1, ?_, ?_⟩
    · rw [h2]
      simp only [bumpUpvote, List.length_cons]
      omega
    · rw [h3]
      simp [bumpUpvote]

theorem statusHandler_inv (st : List Complaint) (cred : Credential) (secret : String)
    (id : String) (stat : Option String) (now : Nat)
    (h : StoreInv st) : StoreInv (statusHandler st cred secret id stat now).store := by
  unfold statusHandler
  cases authAdmin cred secret now with
  | unauthorized => exact h
  | forbidden => exact h
  | authorized =>
    cases stat with
    | none => exact h
    | some s =>
      by_cases hv : validStatus s
      · simp only [hv, if_true]
        cases heq : setStatus st id s now with
        | none => exact h
        | some p =>
          obtain ⟨c', st'⟩ := p
          exact setStatus_inv st id s now h c' st' heq
      · simp only [hv, if_false]
        exact h

/-! ### Claim theorems -/

/-- C2: For every complaint created via the creation endpoint, immediately
after a successful creation its status is `"Pending"`, its upvotes count is
`0`, and its upvoters set is empty. -/
theorem created_complaint_initial_fields (st : List Complaint) (b : CreateBody)
    (newId : String) (now : Nat) (c : Complaint) (st' : List Complaint)
    (h : createHandler st b newId now = .created c st') :
    c.status = "Pending" ∧ c.upvotes = 0 ∧ c.upvoters = [] := by
  unfold createHandler at h
  by_cases hv : validateCreate b
  · rw [if_pos hv] at h
    cases h
    exact ⟨rfl, rfl, rfl⟩
  · rw [if_neg hv] at h
    cases h

/-- Witness for C2 at a concrete valid creation request. -/
theorem created_complaint_initial_fields_witness :
    createHandler [] ⟨none, "Road", "Pothole on Main St",
        "Large pothole causing traffic issues", "Main St & 5th", none⟩ "c_1" 7
      = .created
          { _id := "c_1", name := "", issueType := "Road", title := "Pothole on Main St"
            description := "Large pothole causing traffic issues", location := "Main St & 5th"
            status := "Pending", upvotes := 0, photoData := none, upvoters := []
            createdAt := 7, updatedAt := 7 }
          [{ _id := "c_1", name := "", issueType := "Road", title := "Pothole on Main St"
             description := "Large pothole causing traffic issues", location := "Main St & 5th"
             status := "Pending", upvotes := 0, photoData := none, upvoters := []
             createdAt := 7, updatedAt := 7 }]
    ∧ ({ _id := "c_1", name := "", issueType := "Road", title := "Pothole on Main St"
         description := "Large pothole causing traffic issues", location := "Main St & 5th"
         status := "Pending", upvotes := 0, photoData := none, upvoters := []
         createdAt := 7, updatedAt := 7 } : Complaint).status = "Pending" :=
  ⟨by decide,
    (created_complaint_initial_fields []
      ⟨none, "Road", "Pothole on Main St", "Large pothole causing traffic issues",
        "Main St & 5th", none⟩ "c_1" 7
      { _id := "c_1", name := "", issueType := "Road", title := "Pothole on Main St"
        description := "Large pothole causing traffic issues", location := "Main St & 5th"
        status := "Pending", upvotes := 0, photoData := none, upvoters := []
        createdAt := 7, updatedAt := 7 }
      [{ _id := "c_1", name := "", issueType := "Road", title := "Pothole on Main St"
         description := "Large pothole causing traffic issues", location := "Main St & 5th"
         status := "Pending", upvotes := 0, photoData := none, upvoters := []
         createdAt := 7, updatedAt := 7 }]
      (by decide)).1⟩

/-- C1: the invariant `upvotes = |upvoters|` holds for a freshly created
complaint and is preserved, for every complaint in the store, by the
creation, upvote and status-change operations. -/
theorem store_invariant_preserved (st : List Complaint) (h : StoreInv st) :
    (∀ b newId now c st', createHandler st b newId now = .created c st' →
        ComplaintInv c ∧ StoreInv st')
    ∧ (∀ id ip now, StoreInv (upvoteHandler st id ip now).store)
    ∧ (∀ cred secret id stat now, StoreInv (statusHandler st cred secret id stat now).store) := by
  refine ⟨?_, ?_, ?_⟩
  · intro b newId now c st' hc
    unfold createHandler at hc
    by_cases hv : validateCreate b
    · rw [if_pos hv] at hc
      cases hc
      refine ⟨rfl, ?_⟩
      intro d hd
      rcases List.mem_append.mp hd with h1 | h2
      · exact h d h1
      · rw [List.mem_singleton] at h2
        subst h2
        rfl
    · rw [if_neg hv] at hc
      cases hc
  · intro id ip now
    exact upvoteHandler_inv st id ip now h
  · intro cred secret id stat now
    exact statusHandler_inv st cred secret id stat now h

/-- Witness for C1: a concrete store satisfying the invariant, upvoted at a
concrete address, still satisfies it. -/
theorem store_invariant_preserved_witness :
    StoreInv (upvoteHandler [sampleComplaint] "c1" "1.2.3.4" 9).store := by
  have hinv : StoreInv [sampleComplaint] := by
    intro d hd
    rw [List.mem_singleton] at hd
    subst hd
    rfl
  exact (store_invariant_preserved [sampleComplaint] hinv).2.1 "c1" "1.2.3.4" 9

/-- C3: upvoting twice from the same client address changes nothing the
second time: the store after the second upvote equals the store after the
first, and the complaint returned by the second upvote carries at most one
more upvote than it had originally. -/
theorem upvote_idempotent_per_address (st : List Complaint) (id ip : String)
    (t1 t2 : Nat) (c : Complaint) (h : findComplaint st id = some c) :
    (upvoteHandler (upvoteHandler st id ip t1).store id ip t2).store
        = (upvoteHandler st id ip t1).store
    ∧ ∃ c2, (upvoteHandler (upvoteHandler st id ip t1).store id ip t2).resp = .ok c2
        ∧ c2.upvotes ≤ c.upvotes + 1 := by
  have hid : c._id = id := findComplaint_id st id c h
  have hrun1 := upvoteHandler_find_some st id ip t1 c h
  have hid1 : (upvoteStep c ip t1).1._id = id := by
    rw [upvoteStep_id]
    exact hid
  have hfind1 : findComplaint (upvoteHandler st id ip t1).store id
      = some (upvoteStep c ip t1).1 := by
    rw [hrun1]
    exact find_replaceFirst st id _ hid1 c h
  have hcont : (upvoteStep c ip t1).1.upvoters.contains ip = true :=
    upvoteStep_contains_self c ip t1
  have hstep2 := upvoteStep_of_contains (upvoteStep c ip t1).1 ip t2 hcont
  have hrun2 := upvoteHandler_find_some _ id ip t2 _ hfind1
  rw [hrun2]
  constructor
  · show replaceFirst _ id (upvoteStep (upvoteStep c ip t1).1 ip t2).1 = _
    rw [hstep2]
    exact replaceFirst_self _ id _ hfind1
  · refine ⟨(upvoteStep (upvoteStep c ip t1).1 ip t2).1, rfl, ?_⟩
    rw [hstep2]
    exact upvoteStep_upvotes_le c ip t1

/-- Witness for C3 at a concrete store, complaint and address. -/
theorem upvote_idempotent_per_address_witness :
    (upvoteHandler (upvoteHandler [sampleComplaint] "c1" "8.8.8.8" 10).store "c1" "8.8.8.8" 11).store
        = (upvoteHandler [sampleComplaint] "c1" "8.8.8.8" 10).store
    ∧ ∃ c2, (upvoteHandler (upvoteHandler [sampleComplaint] "c1" "8.8.8.8" 10).store
          "c1" "8.8.8.8" 11).resp = .ok c2
        ∧ c2.upvotes ≤ sampleComplaint.upvotes + 1 :=
  upvote_idempotent_per_address [sampleComplaint] "c1" "8.8.8.8" 10 11 sampleComplaint rfl

/-- C10: an upvote from an address already in the complaint's upvoters set
returns the complaint unchanged (including `updatedAt` and `upvoters`),
leaves the store unchanged, and performs no persistence write, as a success
response. -/
theorem upvote_already_upvoted_noop (st : List Complaint) (id ip : String) (now : Nat)
    (c : Complaint) (h : findComplaint st id = some c)
    (hip : c.upvoters.contains ip = true) :
    upvoteHandler st id ip now = ⟨.ok c, st, false⟩ := by
  have hrun := upvoteHandler_find_some st id ip now c h
  have hstep := upvoteStep_of_contains c ip now hip
  rw [hrun, hstep]
  show UpvoteOut.mk (.ok c) (replaceFirst st id c) false = ⟨.ok c, st, false⟩
  rw [replaceFirst_self st id c h]

/-- Witness for C10: the address `"9.9.9.9"` already upvoted the sample
complaint; a further upvote from it is a no-op success. -/
theorem upvote_already_upvoted_noop_witness :
    upvoteHandler [sampleUpvotedComplaint] "c1" "9.9.9.9" 99
      = ⟨.ok sampleUpvotedComplaint, [sampleUpvotedComplaint], false⟩ :=
  upvote_already_upvoted_noop [sampleUpvotedComplaint] "c1" "9.9.9.9" 99
    sampleUpvotedComplaint rfl rfl

/-- C4 counterexample: the claim as stated fails for a complaint whose
upvoters set already contains one of the addresses. `sampleUpvotedComplaint`
was already upvoted from `"9.9.9.9"`; upvoting it from the single (hence
pairwise-distinct) address list `["9.9.9.9"]` leaves `upvotes` at 1 instead
of incrementing it by exactly 1 to 2. -/
theorem upvote_distinct_addresses_cex :
    (["9.9.9.9"] : List String).Nodup
    ∧ findComplaint [sampleUpvotedComplaint] "c1" = some sampleUpvotedComplaint
    ∧ findComplaint (upvoteAll [sampleUpvotedComplaint] "c1" ["9.9.9.9"] 50) "c1"
        = some sampleUpvotedComplaint
    ∧ sampleUpvotedComplaint.upvotes = 1
    ∧ sampleUpvotedComplaint.upvotes ≠ sampleUpvotedComplaint.upvotes + 1 := by
  refine ⟨by decide, rfl, by decide, rfl, by decide⟩

/-- C4 (amended): for every complaint and every list of pairwise-distinct
client addresses none of which is already in the complaint's upvoters set,
performing one upvote from each address increments the complaint's upvotes
by exactly the number of addresses. -/
theorem upvote_fresh_distinct_addresses (st : List Complaint) (id : String)
    (ips : List String) (now : Nat) (c : Complaint)
    (h : findComplaint st id = some c) (hnd : ips.Nodup)
    (hfresh : ∀ ip ∈ ips, ip ∉ c.upvoters) :
    ∃ c', findComplaint (upvoteAll st id ips now) id = some c'
      ∧ c'.upvotes = c.upvotes + ips.length := by
  obtain ⟨c', h1, h2, _⟩ := upvoteAll_fresh ips st id now c h hnd hfresh
  exact ⟨c', h1, h2⟩

/-- Witness for the amended C4: two fresh distinct addresses upvote the
sample complaint, taking its count from 0 to 2. -/
theorem upvote_fresh_distinct_addresses_witness :
    ∃ c', findComplaint (upvoteAll [sampleComplaint] "c1" ["1.1.1.1", "2.2.2.2"] 50) "c1"
        = some c'
      ∧ c'.upvotes = sampleComplaint.upvotes + 2 :=
  upvote_fresh_distinct_addresses [sampleComplaint] "c1" ["1.1.1.1", "2.2.2.2"] 50
    sampleComplaint rfl (by decide) (by decide)

/-- C5: the list endpoint returns exactly the stored records (a
permutation), ordered by `createdAt` descending, and stably so: for each
key the records with that `createdAt` appear in their original insertion
order. -/
theorem list_sorted_desc_stable (st : List Complaint) :
    (listComplaints st).Perm st
    ∧ (listComplaints st).Pairwise (fun a b => b.createdAt ≤ a.createdAt)
    ∧ ∀ k, (listComplaints st).filter (fun c => c.createdAt == k)
        = st.filter (fun c => c.createdAt == k) :=
  ⟨sortByCreatedDesc_perm st, sortByCreatedDesc_pairwise st,
    fun k => filter_sortByCreatedDesc st k⟩

/-- C6 counterexample: a status request carrying no credential and the
invalid status value `"Closed"` is rejected with the auth error (401), not
the validation error, because the route runs `authAdmin` before the
`status` validator. The claim as stated predicts `validationFailed`. -/
theorem validation_before_auth_cex :
    validStatus "Closed" = false
    ∧ statusHandler [] .missing "secret" "c1" (some "Closed") 0
        = ⟨.authFailed .unauthorized, []⟩
    ∧ StatusResp.authFailed .unauthorized ≠ .validationFailed := by
  refine ⟨by decide, by decide, by decide⟩

/-- C6 (amended): in the status-update pipeline admin authentication is
applied before field validation; a request that carries both an invalid (or
missing) admin credential and an invalid status value is rejected with the
auth error, not the validation error, leaving the store unchanged. -/
theorem auth_checked_before_validation (st : List Complaint) (cred : Credential)
    (secret id s : String) (now : Nat)
    (hauth : authAdmin cred secret now ≠ .authorized)
    (_hs : validStatus s = false) :
    statusHandler st cred secret id (some s) now
      = ⟨.authFailed (authAdmin cred secret now), st⟩ := by
  unfold statusHandler
  cases hA : authAdmin cred secret now with
  | unauthorized => rfl
  | forbidden => rfl
  | authorized => exact absurd hA hauth

/-- Witness for the amended C6 at a concrete request with a bad credential
and a bad status. -/
theorem auth_checked_before_validation_witness :
    statusHandler [sampleComplaint] (.bearer ⟨true, "wrongkey", 100, some "admin"⟩)
        "k" "c1" (some "Nonsense") 0
      = ⟨.authFailed (authAdmin (.bearer ⟨true, "wrongkey", 100, some "admin"⟩) "k" 0),
          [sampleComplaint]⟩ :=
  auth_checked_before_validation [sampleComplaint]
    (.bearer ⟨true, "wrongkey", 100, some "admin"⟩) "k" "c1" "Nonsense" 0
    (by decide) (by decide)

/-- C7 counterexample: the claim as stated fails for requests that do not
authenticate: with an existing complaint in the store, a request with no
credential and status `"Closed"` is rejected with the 401 auth error, not
the claimed 400 validation error (the store is indeed unchanged). -/
theorem invalid_status_request_cex :
    findComplaint [sampleUpvotedComplaint] "c1" = some sampleUpvotedComplaint
    ∧ validStatus "Closed" = false
    ∧ statusHandler [sampleUpvotedComplaint] .missing "k" "c1" (some "Closed") 0
        = ⟨.authFailed .unauthorized, [sampleUpvotedComplaint]⟩
    ∧ StatusResp.authFailed .unauthorized ≠ .validationFailed := by
  refine ⟨rfl, by decide, by decide, by decide⟩

/-- C7 (amended): for every existing complaint, a status-update request
that passes admin authentication and carries a status value outside
{Pending, In Progress, Resolved} is rejected with the 400 validation error
and the store (hence the complaint's stored status) is unchanged. -/
theorem invalid_status_rejected_unchanged (st : List Complaint) (cred : Credential)
    (secret id s : String) (now : Nat)
    (hauth : authAdmin cred secret now = .authorized)
    (hs : validStatus s = false) :
    statusHandler st cred secret id (some s) now = ⟨.validationFailed, st⟩ := by
  unfold statusHandler
  rw [hauth]
  simp [hs]

/-- Witness for the amended C7: an authenticated request with status
`"Closed"` against a store holding the sample complaint. -/
theorem invalid_status_rejected_unchanged_witness :
    statusHandler [sampleUpvotedComplaint] (.bearer ⟨true, "k", 100, some "admin"⟩)
        "k" "c1" (some "Closed") 0
      = ⟨.validationFailed, [sampleUpvotedComplaint]⟩ :=
  invalid_status_rejected_unchanged [sampleUpvotedComplaint]
    (.bearer ⟨true, "k", 100, some "admin"⟩) "k" "c1" "Closed" 0 (by decide) (by decide)

/-- C8: `authAdmin` yields 401 whenever the credential is missing,
malformed, expired, or signed with a mismatched key; 403 whenever the
credential verifies but its role claim is not admin; and passes exactly on
a well-formed, correctly signed, unexpired token with role admin. -/
theorem authAdmin_spec (secret : String) (now : Nat) :
    authAdmin .missing secret now = .unauthorized
    ∧ (∀ t : Token, t.wellFormed = false → authAdmin (.bearer t) secret now = .unauthorized)
    ∧ (∀ t : Token, t.exp ≤ now → authAdmin (.bearer t) secret now = .unauthorized)
    ∧ (∀ t : Token, t.key ≠ secret → authAdmin (.bearer t) secret now = .unauthorized)
    ∧ (∀ t : Token, t.wellFormed = true → t.key = secret → now < t.exp →
        t.role ≠ some "admin" → authAdmin (.bearer t) secret now = .forbidden)
    ∧ (∀ t : Token, authAdmin (.bearer t) secret now = .authorized ↔
        (t.wellFormed = true ∧ t.key = secret ∧ now < t.exp ∧ t.role = some "admin")) := by
  refine ⟨rfl, ?_, ?_, ?_, ?_, ?_⟩
  · intro t hw
    simp [authAdmin, jwtVerify, hw]
  · intro t he
    have hne : ¬ now < t.exp := Nat.not_lt.mpr he
    simp [authAdmin, jwtVerify, hne]
  · intro t hk
    simp [authAdmin, jwtVerify, hk]
  · intro t hw hk he hr
    simp [authAdmin, jwtVerify, hw, hk, he, hr]
  · intro t
    constructor
    · intro hA
      by_cases hw : t.wellFormed = true
      · by_cases hk : t.key = secret
        · by_cases he : now < t.exp
          · by_cases hr : t.role = some "admin"
            · exact ⟨hw, hk, he, hr⟩
            · simp [authAdmin, jwtVerify, hw, hk, he, hr] at hA
          · simp [authAdmin, jwtVerify, hw, hk, he] at hA
        · simp [authAdmin, jwtVerify, hw, hk] at hA
      · have hw' : t.wellFormed = false := by
          simpa using hw
        simp [authAdmin, jwtVerify, hw'] at hA
    · rintro ⟨hw, hk, he, hr⟩
      simp [authAdmin, jwtVerify, hw, hk, he, hr]

/-- Witness for C8: a well-formed, correctly signed, unexpired token whose
role claim is `"user"` is rejected with 403. -/
theorem authAdmin_spec_witness :
    authAdmin (.bearer ⟨true, "k", 10, some "user"⟩) "k" 3 = .forbidden :=
  (authAdmin_spec "k" 3).2.2.2.2.1 ⟨true, "k", 10, some "user"⟩ rfl rfl
    (by decide) (by decide)

/-- C9 counterexample: with the configured admin secret `""`, the supplied
password `""` is an exact string match, yet login rejects it with 401
(`!password` treats the empty string as missing). The claim as stated
predicts success with a signed token. -/
theorem login_exact_match_cex :
    login (some "") "" "k" 0 = .unauthorized
    ∧ LoginResult.unauthorized ≠ .token (jwtSign "admin" "k" 0) := by
  refine ⟨rfl, by decide⟩

/-- C9 (amended): login succeeds, issuing a signed role=admin credential
with 8-hour validity, exactly when the supplied password is nonempty and an
exact string match of the configured admin secret; it fails with 401 when
the password is absent, empty, or any mismatch. -/
theorem login_spec_amended (pw adminPw jsec : String) (now : Nat) :
    (login (some pw) adminPw jsec now = .token (jwtSign "admin" jsec now)
        ↔ (pw ≠ "" ∧ pw = adminPw))
    ∧ (pw = "" ∨ pw ≠ adminPw → login (some pw) adminPw jsec now = .unauthorized)
    ∧ login none adminPw jsec now = .unauthorized
    ∧ (jwtSign "admin" jsec now).role = some "admin"
    ∧ (jwtSign "admin" jsec now).exp = now + eightHours
    ∧ (jwtSign "admin" jsec now).wellFormed = true
    ∧ (jwtSign "admin" jsec now).key = jsec := by
  refine ⟨?_, ?_, rfl, rfl, rfl, rfl, rfl⟩
  · constructor
    · intro hL
      by_cases h0 : pw = ""
      · simp [login, h0] at hL
      · by_cases hm : pw = adminPw
        · exact ⟨h0, hm⟩
        · simp [login, h0, hm] at hL
    · rintro ⟨h0, hm⟩
      subst hm
      simp [login, h0]
  · rintro (h0 | hm)
    · simp [login, h0]
    · by_cases h0 : pw = ""
      · simp [login, h0]
      · simp [login, h0, hm]

/-- Witness for the amended C9: a nonempty matching password logs in and
receives the signed 8-hour admin token; a mismatched one gets 401. -/
theorem login_spec_amended_witness :
    login (some "hunter2") "hunter2" "k" 7 = .token (jwtSign "admin" "k" 7)
    ∧ login (some "guess") "hunter2" "k" 7 = .unauthorized :=
  ⟨(login_spec_amended "hunter2" "hunter2" "k" 7).1.mpr ⟨by decide, rfl⟩,
    (login_spec_amended "guess" "hunter2" "k" 7).2.1 (Or.inr (by decide))⟩
